import Mathlib

/-!
# Verification of the xidlehook policy/composition core

Shallow embedding of the repository's three source files:
* `src/src/modules/mod.rs` — the `Progress` decision type, the `Module`
  trait, and its composite implementations for `Box<dyn Module>`, `(A, B)`
  and `Vec<M>`;
* `src/xidlehook-daemon/src/timer.rs` — the daemon's `CmdTimer` wrapper over
  the library timer;
* `src/xidlehook-daemon/src/main.rs` — CLI timer construction and the
  orchestrator's `main_loop`.

Rust methods take `&mut self`; here each operation takes the state
explicitly and returns the (possibly error) value *paired with the new
state*, so that mutations performed before an error are kept, exactly as
in-place mutation keeps them in Rust.  `Result<T>` becomes `Except ε T`
with the error type `ε` abstract.
-/

deriving instance DecidableEq for Except

namespace Xidlehook

/-- The `Progress` enum of `modules/mod.rs`: the decision each module takes
before/after a timer is executed. -/
inductive Progress
  | Continue
  | Abort
  | Stop
deriving DecidableEq, Repr

/-- `TimerInfo` (defined in the library crate, outside `src/`; the
composition code treats it opaquely).  Modelled from the spec: it
"identifies which timer in the ordered sequence is being considered and its
index/position". -/
structure TimerInfo where
  index : Nat
  length : Nat
deriving DecidableEq, Repr

/-- The `Module` trait: four operations over an explicit state `σ` with
error type `ε`.  Each operation returns its `Result` value together with
the updated state (Rust's `&mut self`). -/
structure Module (ε σ : Type) where
  pre_timer : σ → TimerInfo → Except ε Progress × σ
  post_timer : σ → TimerInfo → Except ε Progress × σ
  warning : σ → ε → Except ε Unit × σ
  reset : σ → Except ε Unit × σ

/-- `impl Module for Box<dyn Module>`: every operation forwards to the
wrapped module (`(&mut **self).pre_timer(timer)` etc.). -/
def Module.box (M : Module ε σ) : Module ε σ where
  pre_timer := fun s t => M.pre_timer s t
  post_timer := fun s t => M.post_timer s t
  warning := fun s e => M.warning s e
  reset := fun s => M.reset s

/-- `impl<A, B> Module for (A, B)`.  For `pre_timer`/`post_timer`:
`let status = self.0.pre_timer(timer)?; if status != Continue
{ return Ok(status); } self.1.pre_timer(timer)` — written here with the
condition in positive form.  For `warning`/`reset`:
`self.0.warning(error)?; self.1.warning(error)`.  On an error from the
first component the second component's state is untouched. -/
def Module.pair (A : Module ε α) (B : Module ε β) : Module ε (α × β) where
  pre_timer := fun s t =>
    match A.pre_timer s.1 t with
    | (Except.error e, a') => (Except.error e, (a', s.2))
    | (Except.ok st, a') =>
      if st = Progress.Continue then
        match B.pre_timer s.2 t with
        | (r, b') => (r, (a', b'))
      else
        (Except.ok st, (a', s.2))
  post_timer := fun s t =>
    match A.post_timer s.1 t with
    | (Except.error e, a') => (Except.error e, (a', s.2))
    | (Except.ok st, a') =>
      if st = Progress.Continue then
        match B.post_timer s.2 t with
        | (r, b') => (r, (a', b'))
      else
        (Except.ok st, (a', s.2))
  warning := fun s e =>
    match A.warning s.1 e with
    | (Except.error er, a') => (Except.error er, (a', s.2))
    | (Except.ok _, a') =>
      match B.warning s.2 e with
      | (r, b') => (r, (a', b'))
  reset := fun s =>
    match A.reset s.1 with
    | (Except.error er, a') => (Except.error er, (a', s.2))
    | (Except.ok _, a') =>
      match B.reset s.2 with
      | (r, b') => (r, (a', b'))

/-- The `for` loop shared by `<Vec<M> as Module>::pre_timer` and
`::post_timer`: `for module in self { let status = module.pre_timer(timer)?;
if status != Progress::Continue { return Ok(status); } } Ok(Continue)`.
Applied pointwise with `f` the per-element call. -/
def chainList (f : σ → Except ε Progress × σ) : List σ → Except ε Progress × List σ
  | [] => (Except.ok Progress.Continue, [])
  | s :: rest =>
    match f s with
    | (Except.error e, s') => (Except.error e, s' :: rest)
    | (Except.ok st, s') =>
      if st = Progress.Continue then
        match chainList f rest with
        | (r, rest') => (r, s' :: rest')
      else
        (Except.ok st, s' :: rest)

/-- The `for` loop shared by `<Vec<M> as Module>::warning` and `::reset`:
`for module in self { module.warning(error)?; } Ok(())`. -/
def seqList (f : σ → Except ε Unit × σ) : List σ → Except ε Unit × List σ
  | [] => (Except.ok (), [])
  | s :: rest =>
    match f s with
    | (Except.error er, s') => (Except.error er, s' :: rest)
    | (Except.ok _, s') =>
      match seqList f rest with
      | (r, rest') => (r, s' :: rest')

/-- `impl<M: Module> Module for Vec<M>`: a homogeneous dynamic collection of
modules, state is the list of element states. -/
def Module.vec (M : Module ε σ) : Module ε (List σ) where
  pre_timer := fun ss t => chainList (fun s => M.pre_timer s t) ss
  post_timer := fun ss t => chainList (fun s => M.post_timer s t) ss
  warning := fun ss e => seqList (fun s => M.warning s e) ss
  reset := fun ss => seqList (fun s => M.reset s) ss

/-- `impl Module for ()` (the default/null policy): hooks default to
`Ok(Continue)`, `warning` logs and returns `Ok(())`, `reset` defaults to
`Ok(())`. -/
def Module.unitModule : Module ε Unit where
  pre_timer := fun s _ => (Except.ok Progress.Continue, s)
  post_timer := fun s _ => (Except.ok Progress.Continue, s)
  warning := fun s _ => (Except.ok (), s)
  reset := fun s => (Except.ok (), s)

/-! ## The daemon's `CmdTimer` (`xidlehook-daemon/src/timer.rs`)

The daemon's `CmdTimer` wraps `xidlehook::timers::CmdTimer` (called `Inner`
in the source; its definition lives in the library crate, outside `src/`).
A `Command` is modelled by its argv vector; `Duration` by a `Nat`. -/

/-- Modelled from the spec: the inner library timer
(`xidlehook::timers::CmdTimer`, not under `src/`).  It stores the idle
threshold `time`, an optional command per hook
(activation/abortion/deactivation), and the `disabled` flag; its `Default`
has no commands and `disabled = false`. -/
structure InnerCmdTimer where
  time : Nat
  activation : Option (List String)
  abortion : Option (List String)
  deactivation : Option (List String)
  disabled : Bool
deriving DecidableEq, Repr

/-- `Inner { time, ..Default::default() }`. -/
def InnerCmdTimer.mkDefault (time : Nat) : InnerCmdTimer :=
  { time := time, activation := none, abortion := none, deactivation := none,
    disabled := false }

/-- Modelled from the spec: the inner timer's `time_left` — "given current
idle duration, returns the duration remaining until this timer's threshold,
or a sentinel meaning already due / disabled, never due.  Disabled timers
always report never due."  `none` is the never-due sentinel; `some d` is the
remaining duration, `some 0` meaning already due (`Nat` subtraction
saturates like `Duration` subtraction). -/
def InnerCmdTimer.time_left (t : InnerCmdTimer) (idle : Nat) : Option Nat :=
  if t.disabled then none else some (t.time - idle)

/-- Modelled from the spec: which command (if any) `activate()` on the
inner timer spawns — "spawns the activation command (if present)";
"an empty string/vector means no command for this hook and the
corresponding transition becomes a pure state change with no process
spawn". -/
def InnerCmdTimer.activateSpawns (t : InnerCmdTimer) : Option (List String) :=
  t.activation

/-- Modelled from the spec: which command (if any) `abort()` spawns. -/
def InnerCmdTimer.abortSpawns (t : InnerCmdTimer) : Option (List String) :=
  t.abortion

/-- Modelled from the spec: which command (if any) `deactivate()` spawns. -/
def InnerCmdTimer.deactivateSpawns (t : InnerCmdTimer) : Option (List String) :=
  t.deactivation

/-- The daemon's `CmdTimer` struct: the inner timer plus the three optional
argv vectors. -/
structure CmdTimer where
  inner : InnerCmdTimer
  activation : Option (List String)
  abortion : Option (List String)
  deactivation : Option (List String)
deriving DecidableEq, Repr

/-- `CmdTimer::sync`: propagate my fields to the inner timer.  In Rust each
field is mapped to a `Command` built as `Command::new(&parts[0])` plus
`args(&parts[1..])`; with commands modelled as argv vectors this is a
copy. -/
def CmdTimer.sync (me : CmdTimer) : CmdTimer :=
  { me with inner :=
      { me.inner with
        activation := me.activation,
        abortion := me.abortion,
        deactivation := me.deactivation } }

/-- `Some(v).filter(|v| !v.is_empty())`. -/
def nonEmptyVec (v : List String) : Option (List String) :=
  if v = [] then none else some v

/-- `Some(s).filter(|s| !s.is_empty()).map(|s| vec!["/bin/sh".into(), "-c".into(), s])`. -/
def shellVec (s : String) : Option (List String) :=
  if s = "" then none else some ["/bin/sh", "-c", s]

/-- `CmdTimer::from_parts`. -/
def CmdTimer.from_parts (time : Nat) (activation abortion deactivation : List String) :
    CmdTimer :=
  CmdTimer.sync
    { inner := InnerCmdTimer.mkDefault time,
      activation := nonEmptyVec activation,
      abortion := nonEmptyVec abortion,
      deactivation := nonEmptyVec deactivation }

/-- `CmdTimer::from_shell`. -/
def CmdTimer.from_shell (time : Nat) (activation abortion deactivation : String) :
    CmdTimer :=
  CmdTimer.sync
    { inner := InnerCmdTimer.mkDefault time,
      activation := shellVec activation,
      abortion := shellVec abortion,
      deactivation := shellVec deactivation }

/-- `CmdTimer::set_disabled`. -/
def CmdTimer.set_disabled (me : CmdTimer) (val : Bool) : CmdTimer :=
  { me with inner := { me.inner with disabled := val } }

/-- `CmdTimer::get_disabled`. -/
def CmdTimer.get_disabled (me : CmdTimer) : Bool :=
  me.inner.disabled

/-- The accessor `CmdTimer::activation(&self) -> &[String]`:
`self.activation.as_ref().map(|v| &**v).unwrap_or(&[])`. -/
def CmdTimer.activationArgv (me : CmdTimer) : List String :=
  me.activation.getD []

/-- The accessor `CmdTimer::abortion`. -/
def CmdTimer.abortionArgv (me : CmdTimer) : List String :=
  me.abortion.getD []

/-- The accessor `CmdTimer::deactivation`. -/
def CmdTimer.deactivationArgv (me : CmdTimer) : List String :=
  me.deactivation.getD []

/-- `<CmdTimer as Timer>::time_left`: forwards to the inner timer. -/
def CmdTimer.time_left (me : CmdTimer) (idle : Nat) : Option Nat :=
  me.inner.time_left idle

/-! ## CLI timer construction (`xidlehook-daemon/src/main.rs`)

The `--timer` flag is declared with
`value_names = &["duration", "command", "canceller"]`, so each occurrence
of the flag consumes exactly three values; clap guarantees `opt.timer`
holds a multiple of three strings. -/

/-- The `value_names` list of the `--timer` structopt attribute. -/
def timerValueNames : List String :=
  ["duration", "command", "canceller"]

/-- The duration parse `iter.next().unwrap().parse::<u64>()`, modelled on
the string's character data: a non-empty all-digit string parses to its
decimal value (the `u64` range bound is not modelled; no claim involves
overflow). -/
def parseDuration (s : String) : Option Nat :=
  if s.data.isEmpty then none
  else if s.data.all Char.isDigit then
    some (s.data.foldl (fun n c => n * 10 + (c.toNat - 48)) 0)
  else none

/-- The `while iter.peek().is_some()` loop of `main`: consume three strings
per timer, parse the duration, and build
`CmdTimer::from_shell(Duration::from_secs(duration), command, canceller,
String::new())`.  A duration that fails to parse makes `main` print an
error and return early (`none` here); a leftover chunk of fewer than three
strings cannot occur under clap and is also `none`. -/
def buildTimers : List String → Option (List CmdTimer)
  | [] => some []
  | d :: cmd :: canceller :: rest =>
    match parseDuration d with
    | none => none
    | some duration =>
      (buildTimers rest).map fun ts =>
        CmdTimer.from_shell duration cmd canceller "" :: ts
  | _ => none

/-! ## The orchestrator's `main_loop` (`xidlehook-daemon/src/main.rs`)

Each iteration of the loop races three futures and acts on whichever
resolves first.  We embed the loop as a function over the *trace* of race
winners: each `LoopEvent` is the `Selected` value one iteration observes.
The loop state records whether `socket_rx` / `signal_rx` are still `Some`;
when one is `None` its branch awaits `future::pending()` and can never win
the race, which the embedding captures by rejecting (returning `none` for)
any trace that selects a disabled branch.  A trace is complete: it ends
exactly at the iteration that leaves the loop. -/

/-- One resolution of the three-way race (`Selected` in the source).
* `socketData o` — the socket branch won with `Some((msg, reply))`; `o` is
  the result of `self.handle_socket(msg)`: `Except.error e` when it fails
  (the `?` propagates), `Except.ok none` for the quit command
  (`None => break`), `Except.ok (some ())` for a normal reply.
* `socketClosed` — the socket branch won with `None` (sender dropped).
* `signalData` — a signal value was received.
* `signalClosed` — the signal channel returned `None`.
* `engineExit res` — `xidlehook.main_async` finished with `res`. -/
inductive LoopEvent (ε : Type)
  | socketData (o : Except ε (Option Unit))
  | socketClosed
  | signalData
  | signalClosed
  | engineExit (res : Except ε Unit)

/-- Whether an event belongs to the socket branch. -/
def LoopEvent.isSocket : LoopEvent ε → Bool
  | .socketData _ => true
  | .socketClosed => true
  | _ => false

/-- Whether an event belongs to the signal branch. -/
def LoopEvent.isSignal : LoopEvent ε → Bool
  | .signalData => true
  | .signalClosed => true
  | _ => false

/-- The mutable loop state: `socket_rx.is_some()` and
`signal_rx.is_some()`. -/
structure LoopState where
  socketOpen : Bool
  signalOpen : Bool
deriving DecidableEq, Repr

/-- State at loop entry: both receivers wrapped in `Some`. -/
def initState : LoopState :=
  { socketOpen := true, signalOpen := true }

/-- A branch can only win the race while its receiver is still `Some`;
otherwise that async block awaits `future::pending()` forever. -/
def selectable (s : LoopState) : LoopEvent ε → Bool
  | .socketData _ => s.socketOpen
  | .socketClosed => s.socketOpen
  | .signalData => s.signalOpen
  | .signalClosed => s.signalOpen
  | .engineExit _ => true

/-- What one arm of the `match res` does. -/
inductive StepOut (ε : Type)
  /-- fall through and loop again, with the updated receiver state -/
  | continueLoop (s : LoopState)
  /-- `break`: leave the loop and run the code after it -/
  | breakLoop
  /-- a `?` fired: `main_loop` returns this error immediately -/
  | earlyReturn (e : ε)

/-- The `match res { ... }` body of one loop iteration. -/
def loopStep (s : LoopState) : LoopEvent ε → StepOut ε
  | .socketData (Except.error e) => .earlyReturn e
  | .socketData (Except.ok none) => .breakLoop
  | .socketData (Except.ok (some _)) => .continueLoop s
  | .socketClosed => .continueLoop { s with socketOpen := false }
  | .signalData => .breakLoop
  | .signalClosed => .continueLoop { s with signalOpen := false }
  | .engineExit (Except.ok _) => .breakLoop
  | .engineExit (Except.error e) => .earlyReturn e

/-- What a completed `main_loop` call did: whether the synthetic
`signal_handler::handler(SIGINT)` notification was sent, whether
`signal_thread.join()` was executed, and the value `main_loop` returned. -/
structure MainResult (ε : Type) where
  interruptSent : Bool
  joined : Bool
  result : Except ε Unit

/-- `App::main_loop` over a complete trace of race winners.  `joinRes` is
what `signal_thread.join()` reports (its error is propagated by the final
`?`).  Leaving the loop by `break` runs the epilogue: send the synthetic
interrupt, join the thread, return `joinRes`.  Leaving by `?` returns the
error with neither done.  A trace that selects a disabled branch, ends
while the loop is still running, or continues past the exiting iteration is
rejected (`none`). -/
def mainLoop (joinRes : Except ε Unit) : LoopState → List (LoopEvent ε) →
    Option (MainResult ε)
  | _, [] => none
  | s, ev :: rest =>
    if selectable s ev then
      match loopStep s ev with
      | .continueLoop s' => mainLoop joinRes s' rest
      | .breakLoop =>
        match rest with
        | [] => some { interruptSent := true, joined := true, result := joinRes }
        | _ :: _ => none
      | .earlyReturn e =>
        match rest with
        | [] => some { interruptSent := false, joined := false,
                       result := Except.error e }
        | _ :: _ => none
    else none

/-! ## Helper lemmas about the composite loops -/

/-- If every element's call returns `Ok(Continue)`, the `pre_timer` /
`post_timer` loop visits the whole list and returns `Ok(Continue)` with
every element updated. -/
theorem chainList_all_continue (f : σ → Except ε Progress × σ) (ss : List σ)
    (h : ∀ p ∈ ss, (f p).1 = Except.ok Progress.Continue) :
    chainList f ss = (Except.ok Progress.Continue, ss.map fun p => (f p).2) := by
  induction ss with
  | nil => rfl
  | cons s rest ih =>
    have hs : (f s).1 = Except.ok Progress.Continue := h s (List.mem_cons_self s rest)
    have hrest := ih fun p hp => h p (List.mem_cons_of_mem s hp)
    rcases hfs : f s with ⟨r, s'⟩
    have hr : r = Except.ok Progress.Continue := by rw [hfs] at hs; exact hs
    subst hr
    simp only [chainList, hfs, if_pos rfl, hrest, List.map_cons, eq_self_iff_true,
      if_true]

/-- If the elements before position `|pre|` all return `Ok(Continue)` and
the element there returns `Ok(st)` with `st ≠ Continue`, the loop stops at
that element: the composite returns `Ok(st)` and the elements after it keep
their states untouched (they are never invoked). -/
theorem chainList_first_break (f : σ → Except ε Progress × σ) (pre : List σ) (s : σ)
    (rest : List σ) (st : Progress)
    (hpre : ∀ p ∈ pre, (f p).1 = Except.ok Progress.Continue)
    (hs : (f s).1 = Except.ok st) (hne : st ≠ Progress.Continue) :
    chainList f (pre ++ s :: rest) =
      (Except.ok st, (pre.map fun p => (f p).2) ++ (f s).2 :: rest) := by
  induction pre with
  | nil =>
    rcases hfs : f s with ⟨r, s'⟩
    have hr : r = Except.ok st := by rw [hfs] at hs; exact hs
    subst hr
    simp only [List.nil_append, chainList, hfs, if_neg hne, List.map_nil]
  | cons p pre ih =>
    have hp : (f p).1 = Except.ok Progress.Continue := hpre p (List.mem_cons_self p pre)
    have ih' := ih fun q hq => hpre q (List.mem_cons_of_mem p hq)
    rcases hfp : f p with ⟨r, p'⟩
    have hr : r = Except.ok Progress.Continue := by rw [hfp] at hp; exact hp
    subst hr
    simp only [List.cons_append, chainList, hfp, if_pos rfl, List.map_cons,
      eq_self_iff_true, if_true, List.append_eq, ih']

/-- If every element's call returns `Ok(())`, the `warning` / `reset` loop
visits the whole list and returns `Ok(())` with every element updated. -/
theorem seqList_all_ok (f : σ → Except ε Unit × σ) (ss : List σ)
    (h : ∀ p ∈ ss, (f p).1 = Except.ok ()) :
    seqList f ss = (Except.ok (), ss.map fun p => (f p).2) := by
  induction ss with
  | nil => rfl
  | cons s rest ih =>
    have hs : (f s).1 = Except.ok () := h s (List.mem_cons_self s rest)
    have hrest := ih fun p hp => h p (List.mem_cons_of_mem s hp)
    rcases hfs : f s with ⟨r, s'⟩
    have hr : r = Except.ok () := by rw [hfs] at hs; exact hs
    subst hr
    simp only [seqList, hfs, List.map_cons, List.append_eq, hrest]

/-- If the elements before position `|pre|` all return `Ok(())` and the
element there fails with `er`, the `warning` / `reset` loop stops at that
element (the `?` operator returns): the composite returns the first failure
and the elements after it keep their states untouched (they are never
invoked). -/
theorem seqList_first_error (f : σ → Except ε Unit × σ) (pre : List σ) (s : σ)
    (rest : List σ) (er : ε)
    (hpre : ∀ p ∈ pre, (f p).1 = Except.ok ())
    (hs : (f s).1 = Except.error er) :
    seqList f (pre ++ s :: rest) =
      (Except.error er, (pre.map fun p => (f p).2) ++ (f s).2 :: rest) := by
  induction pre with
  | nil =>
    rcases hfs : f s with ⟨r, s'⟩
    have hr : r = Except.error er := by rw [hfs] at hs; exact hs
    subst hr
    simp only [List.nil_append, seqList, hfs, List.map_nil]
  | cons p pre ih =>
    have hp : (f p).1 = Except.ok () := hpre p (List.mem_cons_self p pre)
    have ih' := ih fun q hq => hpre q (List.mem_cons_of_mem p hq)
    rcases hfp : f p with ⟨r, p'⟩
    have hr : r = Except.ok () := by rw [hfp] at hp; exact hp
    subst hr
    simp only [List.cons_append, seqList, hfp, List.map_cons, List.append_eq, ih']

/-! ## Concrete modules for evaluating the composites -/

/-- State of the instrumented test module: how many `warning` calls this
member has received, and whether its `warning` fails. -/
structure ProbeSt where
  calls : Nat
  fails : Bool
deriving DecidableEq, Repr

/-- An instrumented module: `warning` records every invocation in `calls`
(also when it fails) and fails exactly when `fails` is set. -/
def probe : Module Nat ProbeSt where
  pre_timer := fun s _ => (Except.ok Progress.Continue, s)
  post_timer := fun s _ => (Except.ok Progress.Continue, s)
  warning := fun s e =>
    (if s.fails then Except.error e else Except.ok (),
     { s with calls := s.calls + 1 })
  reset := fun s => (Except.ok (), s)

/-- A module returning a fixed `Progress` from both hooks, counting its
invocations in its `Nat` state. -/
def constModule (p : Progress) : Module ε Nat where
  pre_timer := fun s _ => (Except.ok p, s + 1)
  post_timer := fun s _ => (Except.ok p, s + 1)
  warning := fun s _ => (Except.ok (), s + 1)
  reset := fun s => (Except.ok (), s + 1)

/-- A module whose hooks return the `Progress` stored in its own state,
counting invocations in the second component. -/
def scripted : Module ε (Progress × Nat) where
  pre_timer := fun s _ => (Except.ok s.1, (s.1, s.2 + 1))
  post_timer := fun s _ => (Except.ok s.1, (s.1, s.2 + 1))
  warning := fun s _ => (Except.ok (), (s.1, s.2 + 1))
  reset := fun s => (Except.ok (), (s.1, s.2 + 1))

/-! ## Pair composition lemmas -/

/-- Pair `pre_timer`: a non-`Continue` first result is returned unchanged
and the second module is not invoked (its state is untouched). -/
theorem pair_pre_break (A : Module ε α) (B : Module ε β) (a : α) (b : β)
    (t : TimerInfo) (st : Progress)
    (hA : (A.pre_timer a t).1 = Except.ok st) (hne : st ≠ Progress.Continue) :
    (A.pair B).pre_timer (a, b) t = (Except.ok st, ((A.pre_timer a t).2, b)) := by
  rcases hfa : A.pre_timer a t with ⟨r, a'⟩
  have hr : r = Except.ok st := by rw [hfa] at hA; exact hA
  subst hr
  simp only [Module.pair, hfa, if_neg hne]

/-- Pair `post_timer`: same short-circuit as `pre_timer`. -/
theorem pair_post_break (A : Module ε α) (B : Module ε β) (a : α) (b : β)
    (t : TimerInfo) (st : Progress)
    (hA : (A.post_timer a t).1 = Except.ok st) (hne : st ≠ Progress.Continue) :
    (A.pair B).post_timer (a, b) t = (Except.ok st, ((A.post_timer a t).2, b)) := by
  rcases hfa : A.post_timer a t with ⟨r, a'⟩
  have hr : r = Except.ok st := by rw [hfa] at hA; exact hA
  subst hr
  simp only [Module.pair, hfa, if_neg hne]

/-- Pair `pre_timer`: after a `Continue` from the first module, the
composite returns exactly the second module's result. -/
theorem pair_pre_continue (A : Module ε α) (B : Module ε β) (a : α) (b : β)
    (t : TimerInfo)
    (hA : (A.pre_timer a t).1 = Except.ok Progress.Continue) :
    (A.pair B).pre_timer (a, b) t =
      ((B.pre_timer b t).1, ((A.pre_timer a t).2, (B.pre_timer b t).2)) := by
  rcases hfa : A.pre_timer a t with ⟨r, a'⟩
  have hr : r = Except.ok Progress.Continue := by rw [hfa] at hA; exact hA
  subst hr
  rcases hfb : B.pre_timer b t with ⟨rb, b'⟩
  simp only [Module.pair, hfa, hfb, eq_self_iff_true, if_true]

/-- Pair `post_timer`: after a `Continue` from the first module, the
composite returns exactly the second module's result. -/
theorem pair_post_continue (A : Module ε α) (B : Module ε β) (a : α) (b : β)
    (t : TimerInfo)
    (hA : (A.post_timer a t).1 = Except.ok Progress.Continue) :
    (A.pair B).post_timer (a, b) t =
      ((B.post_timer b t).1, ((A.post_timer a t).2, (B.post_timer b t).2)) := by
  rcases hfa : A.post_timer a t with ⟨r, a'⟩
  have hr : r = Except.ok Progress.Continue := by rw [hfa] at hA; exact hA
  subst hr
  rcases hfb : B.post_timer b t with ⟨rb, b'⟩
  simp only [Module.pair, hfa, hfb, eq_self_iff_true, if_true]

/-! ## Claim theorems -/

/-- **C9.** The dynamic-dispatch wrapper `Box<dyn Module>` is a transparent
passthrough: each of its four operations returns exactly the wrapped
module's result (value and state), with no change of decision. -/
theorem box_passthrough (M : Module ε σ) (s : σ) (t : TimerInfo) (e : ε) :
    (Module.box M).pre_timer s t = M.pre_timer s t ∧
    (Module.box M).post_timer s t = M.post_timer s t ∧
    (Module.box M).warning s e = M.warning s e ∧
    (Module.box M).reset s = M.reset s :=
  ⟨rfl, rfl, rfl, rfl⟩

/-- **C10.** The empty module collection is the identity policy: for a
`Vec` of zero modules, `pre_timer` and `post_timer` return `Ok(Continue)`
for every `TimerInfo`, and `warning` and `reset` return `Ok(())` for every
input — an empty chain never vetoes, stops, or fails anything. -/
theorem vec_empty_identity (M : Module ε σ) (t : TimerInfo) (e : ε) :
    (Module.vec M).pre_timer [] t = (Except.ok Progress.Continue, []) ∧
    (Module.vec M).post_timer [] t = (Except.ok Progress.Continue, []) ∧
    (Module.vec M).warning [] e = (Except.ok (), []) ∧
    (Module.vec M).reset [] = (Except.ok (), []) :=
  ⟨rfl, rfl, rfl, rfl⟩

/-- **C4.** For every composite module (pair and `Vec`) and every
`TimerInfo`: if an earlier member's `pre_timer` (resp. `post_timer`)
returns a non-`Continue` `Progress`, that value is returned as the
composite's result unchanged and no later member's hook is invoked for
that call (later members' states are untouched, and the result does not
depend on them); if every member returns `Continue`, the composite returns
`Continue`. -/
theorem composite_short_circuit (A : Module ε α) (B : Module ε β) (M : Module ε σ)
    (a : α) (b : β) (t : TimerInfo) (st : Progress) (pre rest : List σ) (s : σ) :
    ((A.pre_timer a t).1 = Except.ok st → st ≠ Progress.Continue →
       (A.pair B).pre_timer (a, b) t = (Except.ok st, ((A.pre_timer a t).2, b))) ∧
    ((A.post_timer a t).1 = Except.ok st → st ≠ Progress.Continue →
       (A.pair B).post_timer (a, b) t = (Except.ok st, ((A.post_timer a t).2, b))) ∧
    ((A.pre_timer a t).1 = Except.ok Progress.Continue →
       (B.pre_timer b t).1 = Except.ok Progress.Continue →
       ((A.pair B).pre_timer (a, b) t).1 = Except.ok Progress.Continue) ∧
    ((A.post_timer a t).1 = Except.ok Progress.Continue →
       (B.post_timer b t).1 = Except.ok Progress.Continue →
       ((A.pair B).post_timer (a, b) t).1 = Except.ok Progress.Continue) ∧
    ((∀ p ∈ pre, (M.pre_timer p t).1 = Except.ok Progress.Continue) →
       (M.pre_timer s t).1 = Except.ok st → st ≠ Progress.Continue →
       (Module.vec M).pre_timer (pre ++ s :: rest) t =
         (Except.ok st,
          (pre.map fun p => (M.pre_timer p t).2) ++ (M.pre_timer s t).2 :: rest)) ∧
    ((∀ p ∈ pre, (M.post_timer p t).1 = Except.ok Progress.Continue) →
       (M.post_timer s t).1 = Except.ok st → st ≠ Progress.Continue →
       (Module.vec M).post_timer (pre ++ s :: rest) t =
         (Except.ok st,
          (pre.map fun p => (M.post_timer p t).2) ++ (M.post_timer s t).2 :: rest)) ∧
    ((∀ p ∈ pre, (M.pre_timer p t).1 = Except.ok Progress.Continue) →
       (Module.vec M).pre_timer pre t =
         (Except.ok Progress.Continue, pre.map fun p => (M.pre_timer p t).2)) ∧
    ((∀ p ∈ pre, (M.post_timer p t).1 = Except.ok Progress.Continue) →
       (Module.vec M).post_timer pre t =
         (Except.ok Progress.Continue, pre.map fun p => (M.post_timer p t).2)) := by
  refine ⟨?_, ?_, ?_, ?_, ?_, ?_, ?_, ?_⟩
  · exact fun hA hne => pair_pre_break A B a b t st hA hne
  · exact fun hA hne => pair_post_break A B a b t st hA hne
  · intro hA hB
    rw [pair_pre_continue A B a b t hA]
    exact hB
  · intro hA hB
    rw [pair_post_continue A B a b t hA]
    exact hB
  · exact fun hpre hs hne =>
      chainList_first_break (fun p => M.pre_timer p t) pre s rest st hpre hs hne
  · exact fun hpre hs hne =>
      chainList_first_break (fun p => M.post_timer p t) pre s rest st hpre hs hne
  · exact fun hpre => chainList_all_continue (fun p => M.pre_timer p t) pre hpre
  · exact fun hpre => chainList_all_continue (fun p => M.post_timer p t) pre hpre

/-- Witness for C4: concrete evaluations of both composites.  A scripted
`Abort` member short-circuits the pair and the three-element collection —
the members after it keep invocation count `0` — and all-`Continue`
members yield `Continue`. -/
theorem composite_short_circuit_witness :
    ((scripted : Module Nat (Progress × Nat)).pair scripted).pre_timer
      ((Progress.Abort, 0), (Progress.Continue, 0)) ⟨0, 2⟩ =
      (Except.ok Progress.Abort, ((Progress.Abort, 1), (Progress.Continue, 0))) ∧
    ((scripted : Module Nat (Progress × Nat)).pair scripted).post_timer
      ((Progress.Stop, 0), (Progress.Continue, 0)) ⟨0, 2⟩ =
      (Except.ok Progress.Stop, ((Progress.Stop, 1), (Progress.Continue, 0))) ∧
    (((scripted : Module Nat (Progress × Nat)).pair scripted).pre_timer
      ((Progress.Continue, 0), (Progress.Continue, 0)) ⟨0, 2⟩).1 =
      Except.ok Progress.Continue ∧
    (((scripted : Module Nat (Progress × Nat)).pair scripted).post_timer
      ((Progress.Continue, 0), (Progress.Continue, 0)) ⟨0, 2⟩).1 =
      Except.ok Progress.Continue ∧
    (Module.vec (scripted : Module Nat (Progress × Nat))).pre_timer
      [(Progress.Continue, 0), (Progress.Abort, 0), (Progress.Continue, 0)] ⟨1, 3⟩ =
      (Except.ok Progress.Abort,
       [(Progress.Continue, 1), (Progress.Abort, 1), (Progress.Continue, 0)]) ∧
    (Module.vec (scripted : Module Nat (Progress × Nat))).post_timer
      [(Progress.Continue, 0), (Progress.Stop, 0), (Progress.Continue, 0)] ⟨1, 3⟩ =
      (Except.ok Progress.Stop,
       [(Progress.Continue, 1), (Progress.Stop, 1), (Progress.Continue, 0)]) ∧
    (Module.vec (scripted : Module Nat (Progress × Nat))).pre_timer
      [(Progress.Continue, 0), (Progress.Continue, 4)] ⟨0, 2⟩ =
      (Except.ok Progress.Continue, [(Progress.Continue, 1), (Progress.Continue, 5)]) ∧
    (Module.vec (scripted : Module Nat (Progress × Nat))).post_timer
      [(Progress.Continue, 0), (Progress.Continue, 4)] ⟨0, 2⟩ =
      (Except.ok Progress.Continue, [(Progress.Continue, 1), (Progress.Continue, 5)]) := by
  have h := composite_short_circuit (scripted : Module Nat (Progress × Nat)) scripted
    scripted (Progress.Abort, 0) (Progress.Continue, 0) ⟨0, 2⟩ Progress.Abort
    [(Progress.Continue, 0)] [(Progress.Continue, 0)] (Progress.Abort, 0)
  have h2 := composite_short_circuit (scripted : Module Nat (Progress × Nat)) scripted
    scripted (Progress.Stop, 0) (Progress.Continue, 0) ⟨0, 2⟩ Progress.Stop
    [(Progress.Continue, 0)] [(Progress.Continue, 0)] (Progress.Stop, 0)
  have h3 := composite_short_circuit (scripted : Module Nat (Progress × Nat)) scripted
    scripted (Progress.Continue, 0) (Progress.Continue, 0) ⟨0, 2⟩ Progress.Abort
    [(Progress.Continue, 0), (Progress.Continue, 4)] [] (Progress.Abort, 0)
  refine ⟨?_, ?_, ?_, ?_, ?_, ?_, ?_, ?_⟩
  · exact h.1 rfl (by decide)
  · exact h2.2.1 rfl (by decide)
  · exact h3.2.2.1 rfl rfl
  · exact h3.2.2.2.1 rfl rfl
  · have := composite_short_circuit (scripted : Module Nat (Progress × Nat)) scripted
      scripted (Progress.Abort, 0) (Progress.Continue, 0) ⟨1, 3⟩ Progress.Abort
      [(Progress.Continue, 0)] [(Progress.Continue, 0)] (Progress.Abort, 0)
    exact this.2.2.2.2.1
      (by intro p hp; rcases List.mem_singleton.1 hp with rfl; rfl) rfl (by decide)
  · have := composite_short_circuit (scripted : Module Nat (Progress × Nat)) scripted
      scripted (Progress.Stop, 0) (Progress.Continue, 0) ⟨1, 3⟩ Progress.Stop
      [(Progress.Continue, 0)] [(Progress.Continue, 0)] (Progress.Stop, 0)
    exact this.2.2.2.2.2.1
      (by intro p hp; rcases List.mem_singleton.1 hp with rfl; rfl) rfl (by decide)
  · exact h3.2.2.2.2.2.2.1
      (by intro p hp; rcases List.mem_cons.1 hp with rfl | hp'
          · rfl
          · rcases List.mem_singleton.1 hp' with rfl; rfl)
  · exact h3.2.2.2.2.2.2.2
      (by intro p hp; rcases List.mem_cons.1 hp with rfl | hp'
          · rfl
          · rcases List.mem_singleton.1 hp' with rfl; rfl)

/-- Pair `warning`: a failure of the first module is returned immediately
(the `?` operator) and the second module is not invoked. -/
theorem pair_warning_break (A : Module ε α) (B : Module ε β) (a : α) (b : β)
    (e er : ε) (hA : (A.warning a e).1 = Except.error er) :
    (A.pair B).warning (a, b) e = (Except.error er, ((A.warning a e).2, b)) := by
  rcases hfa : A.warning a e with ⟨r, a'⟩
  have hr : r = Except.error er := by rw [hfa] at hA; exact hA
  subst hr
  simp only [Module.pair, hfa]

/-- Pair `warning`: when the first module's warning succeeds, the second
one is invoked and the composite returns its result. -/
theorem pair_warning_ok (A : Module ε α) (B : Module ε β) (a : α) (b : β)
    (e : ε) (hA : (A.warning a e).1 = Except.ok ()) :
    (A.pair B).warning (a, b) e =
      ((B.warning b e).1, ((A.warning a e).2, (B.warning b e).2)) := by
  rcases hfa : A.warning a e with ⟨r, a'⟩
  have hr : r = Except.ok () := by rw [hfa] at hA; exact hA
  subst hr
  rcases hfb : B.warning b e with ⟨rb, b'⟩
  simp only [Module.pair, hfa, hfb]

/-- **C1 (amended).** For both composite forms, `warning` is delivered to
the members in sequence order only up to and including the first member
whose `warning` fails; that first failure is returned as the composite's
result and the members after it are not invoked (their states are
untouched and the result does not depend on them).  If no member fails,
every member receives the call and the composite returns `Ok`. -/
theorem warning_first_failure (A : Module ε α) (B : Module ε β) (M : Module ε σ)
    (a : α) (b : β) (e er : ε) :
    ((A.warning a e).1 = Except.error er →
       (A.pair B).warning (a, b) e = (Except.error er, ((A.warning a e).2, b))) ∧
    ((A.warning a e).1 = Except.ok () →
       (A.pair B).warning (a, b) e =
         ((B.warning b e).1, ((A.warning a e).2, (B.warning b e).2))) ∧
    (∀ ss : List σ, (∀ p ∈ ss, (M.warning p e).1 = Except.ok ()) →
       (Module.vec M).warning ss e =
         (Except.ok (), ss.map fun p => (M.warning p e).2)) ∧
    (∀ (pre rest : List σ) (s : σ),
       (∀ p ∈ pre, (M.warning p e).1 = Except.ok ()) →
       (M.warning s e).1 = Except.error er →
       (Module.vec M).warning (pre ++ s :: rest) e =
         (Except.error er,
          (pre.map fun p => (M.warning p e).2) ++ (M.warning s e).2 :: rest)) := by
  refine ⟨?_, ?_, ?_, ?_⟩
  · exact fun hA => pair_warning_break A B a b e er hA
  · exact fun hA => pair_warning_ok A B a b e hA
  · exact fun ss hss => seqList_all_ok (fun p => M.warning p e) ss hss
  · exact fun pre rest s hpre hs =>
      seqList_first_error (fun p => M.warning p e) pre s rest er hpre hs

/-- Counterexample to C1 as stated: in a collection of two instrumented
members where the first member's `warning` fails, the composite returns
the first failure but the second member is **not** invoked — its
invocation count stays `0` (the claim requires every member to receive the
call).  The pair composite behaves the same way. -/
theorem warning_not_delivered_after_failure :
    (Module.vec probe).warning [⟨0, true⟩, ⟨0, false⟩] 7 =
      (Except.error 7, [⟨1, true⟩, ⟨0, false⟩]) ∧
    ((Module.vec probe).warning [⟨0, true⟩, ⟨0, false⟩] 7).2.map ProbeSt.calls =
      [1, 0] ∧
    (probe.pair probe).warning (⟨0, true⟩, ⟨0, false⟩) 7 =
      (Except.error 7, (⟨1, true⟩, ⟨0, false⟩)) := by
  exact ⟨rfl, rfl, rfl⟩

/-- Witness for C1: the amended theorem applied to the instrumented module
at concrete inputs, covering all four conjuncts. -/
theorem warning_first_failure_witness :
    (probe.pair probe).warning (⟨2, true⟩, ⟨5, false⟩) 9 =
      (Except.error 9, (⟨3, true⟩, ⟨5, false⟩)) ∧
    (probe.pair probe).warning (⟨2, false⟩, ⟨5, false⟩) 9 =
      (Except.ok (), (⟨3, false⟩, ⟨6, false⟩)) ∧
    (Module.vec probe).warning [⟨0, false⟩, ⟨4, false⟩] 9 =
      (Except.ok (), [⟨1, false⟩, ⟨5, false⟩]) ∧
    (Module.vec probe).warning [⟨0, false⟩, ⟨4, true⟩, ⟨7, false⟩] 9 =
      (Except.error 9, [⟨1, false⟩, ⟨5, true⟩, ⟨7, false⟩]) := by
  have h1 := warning_first_failure probe probe probe ⟨2, true⟩ ⟨5, false⟩ 9 9
  have h2 := warning_first_failure probe probe probe ⟨2, false⟩ ⟨5, false⟩ 9 9
  refine ⟨h1.1 rfl, h2.2.1 rfl, ?_, ?_⟩
  · exact h1.2.2.1 [⟨0, false⟩, ⟨4, false⟩]
      (by intro p hp
          rcases List.mem_cons.1 hp with rfl | hp'
          · rfl
          · rcases List.mem_singleton.1 hp' with rfl; rfl)
  · exact h1.2.2.2 [⟨0, false⟩] [⟨7, false⟩] ⟨4, true⟩
      (by intro p hp; rcases List.mem_singleton.1 hp with rfl; rfl) rfl

/-- Reassociation of the composite state, `(a, (b, c)) ↦ ((a, b), c)`. -/
def assocState : α × (β × γ) → (α × β) × γ := fun s => ((s.1, s.2.1), s.2.2)

/-- Associativity of pair composition for `pre_timer`. -/
theorem pair_assoc_pre (A : Module ε α) (B : Module ε β) (C : Module ε γ)
    (a : α) (b : β) (c : γ) (t : TimerInfo) :
    ((A.pair B).pair C).pre_timer ((a, b), c) t =
      (((A.pair (B.pair C)).pre_timer (a, (b, c)) t).1,
       assocState ((A.pair (B.pair C)).pre_timer (a, (b, c)) t).2) := by
  rcases hA : A.pre_timer a t with ⟨ra, a'⟩
  cases ra with
  | error e => simp [Module.pair, assocState, hA]
  | ok st =>
    by_cases hst : st = Progress.Continue
    · subst hst
      rcases hB : B.pre_timer b t with ⟨rb, b'⟩
      cases rb with
      | error e => simp [Module.pair, assocState, hA, hB]
      | ok st' =>
        by_cases hst' : st' = Progress.Continue
        · subst hst'
          rcases hC : C.pre_timer c t with ⟨rc, c'⟩
          simp [Module.pair, assocState, hA, hB, hC]
        · simp [Module.pair, assocState, hA, hB, hst']
    · simp [Module.pair, assocState, hA, hst]

/-- Associativity of pair composition for `post_timer`. -/
theorem pair_assoc_post (A : Module ε α) (B : Module ε β) (C : Module ε γ)
    (a : α) (b : β) (c : γ) (t : TimerInfo) :
    ((A.pair B).pair C).post_timer ((a, b), c) t =
      (((A.pair (B.pair C)).post_timer (a, (b, c)) t).1,
       assocState ((A.pair (B.pair C)).post_timer (a, (b, c)) t).2) := by
  rcases hA : A.post_timer a t with ⟨ra, a'⟩
  cases ra with
  | error e => simp [Module.pair, assocState, hA]
  | ok st =>
    by_cases hst : st = Progress.Continue
    · subst hst
      rcases hB : B.post_timer b t with ⟨rb, b'⟩
      cases rb with
      | error e => simp [Module.pair, assocState, hA, hB]
      | ok st' =>
        by_cases hst' : st' = Progress.Continue
        · subst hst'
          rcases hC : C.post_timer c t with ⟨rc, c'⟩
          simp [Module.pair, assocState, hA, hB, hC]
        · simp [Module.pair, assocState, hA, hB, hst']
    · simp [Module.pair, assocState, hA, hst]

/-- Associativity of pair composition for `warning`. -/
theorem pair_assoc_warning (A : Module ε α) (B : Module ε β) (C : Module ε γ)
    (a : α) (b : β) (c : γ) (e : ε) :
    ((A.pair B).pair C).warning ((a, b), c) e =
      (((A.pair (B.pair C)).warning (a, (b, c)) e).1,
       assocState ((A.pair (B.pair C)).warning (a, (b, c)) e).2) := by
  rcases hA : A.warning a e with ⟨ra, a'⟩
  cases ra with
  | error er => simp [Module.pair, assocState, hA]
  | ok u =>
    rcases hB : B.warning b e with ⟨rb, b'⟩
    cases rb with
    | error er => simp [Module.pair, assocState, hA, hB]
    | ok u' =>
      rcases hC : C.warning c e with ⟨rc, c'⟩
      simp [Module.pair, assocState, hA, hB, hC]

/-- Associativity of pair composition for `reset`. -/
theorem pair_assoc_reset (A : Module ε α) (B : Module ε β) (C : Module ε γ)
    (a : α) (b : β) (c : γ) :
    ((A.pair B).pair C).reset ((a, b), c) =
      (((A.pair (B.pair C)).reset (a, (b, c))).1,
       assocState ((A.pair (B.pair C)).reset (a, (b, c))).2) := by
  rcases hA : A.reset a with ⟨ra, a'⟩
  cases ra with
  | error er => simp [Module.pair, assocState, hA]
  | ok u =>
    rcases hB : B.reset b with ⟨rb, b'⟩
    cases rb with
    | error er => simp [Module.pair, assocState, hA, hB]
    | ok u' =>
      rcases hC : C.reset c with ⟨rc, c'⟩
      simp [Module.pair, assocState, hA, hB, hC]

/-- **C8.** Fixed-arity pair composition is associative: for all modules
`A`, `B`, `C`, every `TimerInfo` and every error input, each of the four
operations of `((A, B), C)` produces the same result value and the same
member states (up to reassociation of the nesting) as the corresponding
operation of `(A, (B, C))`.  Because this holds for arbitrary modules —
including ones whose state records every invocation they receive, such as
`scripted` or `probe` — equality of the final states also forces both
nestings to perform the same sequence of member invocations. -/
theorem pair_assoc (A : Module ε α) (B : Module ε β) (C : Module ε γ)
    (a : α) (b : β) (c : γ) (t : TimerInfo) (e : ε) :
    ((A.pair B).pair C).pre_timer ((a, b), c) t =
      (((A.pair (B.pair C)).pre_timer (a, (b, c)) t).1,
       assocState ((A.pair (B.pair C)).pre_timer (a, (b, c)) t).2) ∧
    ((A.pair B).pair C).post_timer ((a, b), c) t =
      (((A.pair (B.pair C)).post_timer (a, (b, c)) t).1,
       assocState ((A.pair (B.pair C)).post_timer (a, (b, c)) t).2) ∧
    ((A.pair B).pair C).warning ((a, b), c) e =
      (((A.pair (B.pair C)).warning (a, (b, c)) e).1,
       assocState ((A.pair (B.pair C)).warning (a, (b, c)) e).2) ∧
    ((A.pair B).pair C).reset ((a, b), c) =
      (((A.pair (B.pair C)).reset (a, (b, c))).1,
       assocState ((A.pair (B.pair C)).reset (a, (b, c))).2) :=
  ⟨pair_assoc_pre A B C a b c t, pair_assoc_post A B C a b c t,
   pair_assoc_warning A B C a b c e, pair_assoc_reset A B C a b c⟩

/-- **C6.** For every timer constructed via `from_shell`, each non-empty
hook string `s` yields exactly the command vector `["/bin/sh", "-c", s]`
for that hook, and an empty hook string yields no command for that hook:
the accessor returns the empty slice, the synced inner timer holds no
command, and (spawn behaviour modelled from the spec) no process is
spawned for that transition.  Likewise `from_parts` maps an empty argv
vector to no command. -/
theorem from_shell_hook_commands (time : Nat) (sa sb sd : String)
    (va vb vd : List String) :
    (sa ≠ "" → (CmdTimer.from_shell time sa sb sd).activationArgv =
       ["/bin/sh", "-c", sa]) ∧
    (sb ≠ "" → (CmdTimer.from_shell time sa sb sd).abortionArgv =
       ["/bin/sh", "-c", sb]) ∧
    (sd ≠ "" → (CmdTimer.from_shell time sa sb sd).deactivationArgv =
       ["/bin/sh", "-c", sd]) ∧
    (sa = "" → (CmdTimer.from_shell time sa sb sd).activationArgv = [] ∧
       (CmdTimer.from_shell time sa sb sd).inner.activateSpawns = none) ∧
    (sb = "" → (CmdTimer.from_shell time sa sb sd).abortionArgv = [] ∧
       (CmdTimer.from_shell time sa sb sd).inner.abortSpawns = none) ∧
    (sd = "" → (CmdTimer.from_shell time sa sb sd).deactivationArgv = [] ∧
       (CmdTimer.from_shell time sa sb sd).inner.deactivateSpawns = none) ∧
    (va = [] → (CmdTimer.from_parts time va vb vd).activation = none ∧
       (CmdTimer.from_parts time va vb vd).inner.activateSpawns = none) ∧
    (vb = [] → (CmdTimer.from_parts time va vb vd).abortion = none ∧
       (CmdTimer.from_parts time va vb vd).inner.abortSpawns = none) ∧
    (vd = [] → (CmdTimer.from_parts time va vb vd).deactivation = none ∧
       (CmdTimer.from_parts time va vb vd).inner.deactivateSpawns = none) := by
  refine ⟨?_, ?_, ?_, ?_, ?_, ?_, ?_, ?_, ?_⟩ <;> intro h <;>
    simp [CmdTimer.from_shell, CmdTimer.from_parts, CmdTimer.sync, shellVec,
      nonEmptyVec, CmdTimer.activationArgv, CmdTimer.abortionArgv,
      CmdTimer.deactivationArgv, InnerCmdTimer.activateSpawns,
      InnerCmdTimer.abortSpawns, InnerCmdTimer.deactivateSpawns, h]

/-- Witness for C6: concrete constructions with non-empty and empty hook
strings/vectors. -/
theorem from_shell_hook_commands_witness :
    (CmdTimer.from_shell 5 "a" "b" "c").activationArgv = ["/bin/sh", "-c", "a"] ∧
    (CmdTimer.from_shell 5 "a" "b" "c").abortionArgv = ["/bin/sh", "-c", "b"] ∧
    (CmdTimer.from_shell 5 "a" "b" "c").deactivationArgv = ["/bin/sh", "-c", "c"] ∧
    (CmdTimer.from_shell 5 "" "" "").activationArgv = [] ∧
    (CmdTimer.from_shell 5 "" "" "").inner.activateSpawns = none ∧
    (CmdTimer.from_shell 5 "" "" "").abortionArgv = [] ∧
    (CmdTimer.from_shell 5 "" "" "").inner.abortSpawns = none ∧
    (CmdTimer.from_shell 5 "" "" "").deactivationArgv = [] ∧
    (CmdTimer.from_shell 5 "" "" "").inner.deactivateSpawns = none ∧
    (CmdTimer.from_parts 5 [] [] []).activation = none ∧
    (CmdTimer.from_parts 5 [] [] []).inner.activateSpawns = none := by
  have h1 := from_shell_hook_commands 5 "a" "b" "c" ["x"] ["y"] ["z"]
  have h2 := from_shell_hook_commands 5 "" "" "" ([] : List String) [] []
  exact ⟨h1.1 (by decide), h1.2.1 (by decide), h1.2.2.1 (by decide),
    (h2.2.2.2.1 rfl).1, (h2.2.2.2.1 rfl).2,
    (h2.2.2.2.2.1 rfl).1, (h2.2.2.2.2.1 rfl).2,
    (h2.2.2.2.2.2.1 rfl).1, (h2.2.2.2.2.2.1 rfl).2,
    (h2.2.2.2.2.2.2.1 rfl).1, (h2.2.2.2.2.2.2.1 rfl).2⟩

/-- **C7.** A timer whose `disabled` flag is set reports the never-due
sentinel (`none`) from `time_left` for every idle duration; after
`set_disabled(false)` the very next query reports the remaining duration,
and in particular reports the timer as due exactly when the idle duration
has reached the configured threshold.  (The inner timer's `time_left` is
modelled from the spec, its source being outside this crate.) -/
theorem disabled_time_left_never_due (me : CmdTimer) (idle idle2 : Nat)
    (h : me.get_disabled = true) :
    me.time_left idle = none ∧
    (me.set_disabled false).time_left idle2 = some (me.inner.time - idle2) ∧
    ((me.set_disabled false).time_left idle2 = some 0 ↔ me.inner.time ≤ idle2) := by
  have h' : me.inner.disabled = true := h
  refine ⟨?_, ?_, ?_⟩
  · simp [CmdTimer.time_left, InnerCmdTimer.time_left, h']
  · simp [CmdTimer.time_left, InnerCmdTimer.time_left, CmdTimer.set_disabled]
  · simp [CmdTimer.time_left, InnerCmdTimer.time_left, CmdTimer.set_disabled,
      Nat.sub_eq_zero_iff_le]

/-- Witness for C7: a concrete disabled timer with threshold 5 is never
due, and re-enabling it makes the next query report the remaining time. -/
theorem disabled_time_left_never_due_witness :
    ((CmdTimer.from_shell 5 "a" "b" "c").set_disabled true).time_left 100 = none ∧
    (((CmdTimer.from_shell 5 "a" "b" "c").set_disabled true).set_disabled
      false).time_left 3 = some 2 ∧
    ((((CmdTimer.from_shell 5 "a" "b" "c").set_disabled true).set_disabled
      false).time_left 3 = some 0 ↔ (5 : Nat) ≤ 3) := by
  have h := disabled_time_left_never_due
    ((CmdTimer.from_shell 5 "a" "b" "c").set_disabled true) 100 3 rfl
  exact ⟨h.1, h.2.1, h.2.2⟩

/-- Every timer produced by the CLI loop has no deactivation command: the
loop always passes `String::new()` as the fourth `from_shell` argument. -/
theorem buildTimers_deactivation : ∀ (args : List String) (ts : List CmdTimer),
    buildTimers args = some ts → ∀ t ∈ ts,
      t.deactivation = none ∧ t.inner.deactivation = none
  | [], ts, h => by
    simp only [buildTimers, Option.some.injEq] at h
    subst h
    intro t ht
    cases ht
  | [d], ts, h => by
    exact Option.noConfusion h
  | [d, cmd], ts, h => by
    exact Option.noConfusion h
  | d :: cmd :: canceller :: rest, ts, h => by
    simp only [buildTimers] at h
    cases hd : parseDuration d with
    | none => rw [hd] at h; exact Option.noConfusion h
    | some duration =>
      rw [hd] at h
      cases hrest : buildTimers rest with
      | none => rw [hrest] at h; exact Option.noConfusion h
      | some ts' =>
        rw [hrest] at h
        simp only [Option.map, Option.some.injEq] at h
        subst h
        intro t ht
        rcases List.mem_cons.1 ht with rfl | ht'
        · exact ⟨rfl, rfl⟩
        · exact buildTimers_deactivation rest ts' hrest t ht'

/-- **C3 (amended).** Each occurrence of the `--timer` flag supplies
exactly three values — duration, command (activation), canceller
(abortion) — and every timer constructed from the CLI carries an empty
deactivation: no CLI-built timer can have a non-empty deactivation
command. -/
theorem cli_timer_no_deactivation :
    timerValueNames.length = 3 ∧
    (∀ (args : List String) (ts : List CmdTimer), buildTimers args = some ts →
       ∀ t ∈ ts, t.deactivation = none ∧ t.deactivationArgv = [] ∧
         t.inner.deactivateSpawns = none) := by
  refine ⟨rfl, fun args ts h t ht => ?_⟩
  obtain ⟨h1, h2⟩ := buildTimers_deactivation args ts h t ht
  exact ⟨h1, by simp [CmdTimer.deactivationArgv, h1],
    by simp [InnerCmdTimer.deactivateSpawns, h2]⟩

/-- Counterexample to C3 as stated: the `--timer` flag consumes three
values, not four, and the timer the CLI loop builds from
`["5", "echo on", "echo off"]` has an empty deactivation — contrary to the
claim that a CLI-built timer carries four values and can have a non-empty
deactivation command. -/
theorem cli_timer_counterexample :
    timerValueNames.length ≠ 4 ∧
    buildTimers ["5", "echo on", "echo off"] =
      some [CmdTimer.from_shell 5 "echo on" "echo off" ""] ∧
    (CmdTimer.from_shell 5 "echo on" "echo off" "").deactivation = none ∧
    (CmdTimer.from_shell 5 "echo on" "echo off" "").deactivationArgv = [] := by
  exact ⟨by decide, by rfl, rfl, rfl⟩

/-- Witness for C3: the amended theorem applied to the concrete argument
list `["5", "a", "b"]`. -/
theorem cli_timer_no_deactivation_witness :
    timerValueNames.length = 3 ∧
    (CmdTimer.from_shell 5 "a" "b" "").deactivation = none ∧
    (CmdTimer.from_shell 5 "a" "b" "").deactivationArgv = [] ∧
    (CmdTimer.from_shell 5 "a" "b" "").inner.deactivateSpawns = none := by
  have h := cli_timer_no_deactivation
  exact ⟨h.1, h.2 ["5", "a", "b"] [CmdTimer.from_shell 5 "a" "b" ""] (by rfl)
    (CmdTimer.from_shell 5 "a" "b" "") (List.mem_singleton.2 rfl)⟩

/-! ## Main-loop lemmas -/

/-- Running a prefix of loop iterations that all fall through
(`continueLoop`), yielding the receiver state they leave behind. -/
def runEvents : LoopState → List (LoopEvent ε) → Option LoopState
  | s, [] => some s
  | s, ev :: rest =>
    if selectable s ev then
      match loopStep s ev with
      | .continueLoop s' => runEvents s' rest
      | _ => none
    else none

/-- A trace whose last event's arm is `break` completes the shutdown
epilogue: synthetic interrupt sent, thread joined, join result
propagated. -/
theorem mainLoop_last_break (jr : Except ε Unit) (ev : LoopEvent ε)
    (hbreak : ∀ s : LoopState, loopStep s ev = StepOut.breakLoop) :
    ∀ (tr : List (LoopEvent ε)) (s : LoopState) (r : MainResult ε),
      mainLoop jr s (tr ++ [ev]) = some r → r = ⟨true, true, jr⟩
  | [], s, r, h => by
    simp only [List.nil_append, mainLoop] at h
    by_cases hsel : selectable s ev = true
    · rw [if_pos hsel, hbreak s] at h
      simp only [Option.some.injEq] at h
      exact h.symm
    · rw [if_neg hsel] at h
      exact Option.noConfusion h
  | e' :: tr, s, r, h => by
    simp only [List.cons_append, mainLoop] at h
    by_cases hsel : selectable s e' = true
    · rw [if_pos hsel] at h
      cases hstep : loopStep s e' with
      | continueLoop s' =>
        rw [hstep] at h
        exact mainLoop_last_break jr ev hbreak tr s' r h
      | breakLoop =>
        rw [hstep] at h
        cases tr with
        | nil => exact Option.noConfusion h
        | cons x xs => exact Option.noConfusion h
      | earlyReturn e2 =>
        rw [hstep] at h
        cases tr with
        | nil => exact Option.noConfusion h
        | cons x xs => exact Option.noConfusion h
    · rw [if_neg hsel] at h
      exact Option.noConfusion h

/-- A trace whose last event's arm is a `?` early return skips the
shutdown epilogue: no interrupt, no join, the error is returned. -/
theorem mainLoop_last_early (jr : Except ε Unit) (ev : LoopEvent ε) (e : ε)
    (hearly : ∀ s : LoopState, loopStep s ev = StepOut.earlyReturn e) :
    ∀ (tr : List (LoopEvent ε)) (s : LoopState) (r : MainResult ε),
      mainLoop jr s (tr ++ [ev]) = some r →
      r = ⟨false, false, Except.error e⟩
  | [], s, r, h => by
    simp only [List.nil_append, mainLoop] at h
    by_cases hsel : selectable s ev = true
    · rw [if_pos hsel, hearly s] at h
      simp only [Option.some.injEq] at h
      exact h.symm
    · rw [if_neg hsel] at h
      exact Option.noConfusion h
  | e' :: tr, s, r, h => by
    simp only [List.cons_append, mainLoop] at h
    by_cases hsel : selectable s e' = true
    · rw [if_pos hsel] at h
      cases hstep : loopStep s e' with
      | continueLoop s' =>
        rw [hstep] at h
        exact mainLoop_last_early jr ev e hearly tr s' r h
      | breakLoop =>
        rw [hstep] at h
        cases tr with
        | nil => exact Option.noConfusion h
        | cons x xs => exact Option.noConfusion h
      | earlyReturn e2 =>
        rw [hstep] at h
        cases tr with
        | nil => exact Option.noConfusion h
        | cons x xs => exact Option.noConfusion h
    · rw [if_neg hsel] at h
      exact Option.noConfusion h

/-- An iteration that falls through never re-opens a closed socket
receiver. -/
theorem loopStep_keeps_socket_closed (s s' : LoopState) (ev : LoopEvent ε)
    (h : loopStep s ev = StepOut.continueLoop s') (hs : s.socketOpen = false) :
    s'.socketOpen = false := by
  cases ev with
  | socketData o =>
    cases o with
    | error e => exact StepOut.noConfusion h
    | ok v =>
      cases v with
      | none => exact StepOut.noConfusion h
      | some u => injection h with h; subst h; exact hs
  | socketClosed => injection h with h; subst h; rfl
  | signalData => exact StepOut.noConfusion h
  | signalClosed => injection h with h; subst h; exact hs
  | engineExit res =>
    cases res with
    | error e => exact StepOut.noConfusion h
    | ok u => exact StepOut.noConfusion h

/-- An iteration that falls through never re-opens a closed signal
receiver. -/
theorem loopStep_keeps_signal_closed (s s' : LoopState) (ev : LoopEvent ε)
    (h : loopStep s ev = StepOut.continueLoop s') (hs : s.signalOpen = false) :
    s'.signalOpen = false := by
  cases ev with
  | socketData o =>
    cases o with
    | error e => exact StepOut.noConfusion h
    | ok v =>
      cases v with
      | none => exact StepOut.noConfusion h
      | some u => injection h with h; subst h; exact hs
  | socketClosed => injection h with h; subst h; exact hs
  | signalData => exact StepOut.noConfusion h
  | signalClosed => injection h with h; subst h; rfl
  | engineExit res =>
    cases res with
    | error e => exact StepOut.noConfusion h
    | ok u => exact StepOut.noConfusion h

/-- Once the socket receiver is gone, no later iteration of a valid
complete trace selects a socket event. -/
theorem mainLoop_no_socket_after_closed (jr : Except ε Unit) :
    ∀ (tr : List (LoopEvent ε)) (s : LoopState) (r : MainResult ε),
      s.socketOpen = false → mainLoop jr s tr = some r →
      ∀ ev ∈ tr, ev.isSocket = false
  | [], s, r, hs, h, ev, hev => absurd hev (List.not_mem_nil ev)
  | e' :: tr, s, r, hs, h, ev, hev => by
    simp only [mainLoop] at h
    by_cases hsel : selectable s e' = true
    · rw [if_pos hsel] at h
      rcases List.mem_cons.1 hev with rfl | hev'
      · cases ev with
        | socketData o => rw [show selectable s (LoopEvent.socketData o) = s.socketOpen from rfl, hs] at hsel; exact Bool.noConfusion hsel
        | socketClosed => rw [show selectable s (LoopEvent.socketClosed : LoopEvent ε) = s.socketOpen from rfl, hs] at hsel; exact Bool.noConfusion hsel
        | signalData => rfl
        | signalClosed => rfl
        | engineExit res => rfl
      · cases hstep : loopStep s e' with
        | continueLoop s' =>
          rw [hstep] at h
          exact mainLoop_no_socket_after_closed jr tr s' r
            (loopStep_keeps_socket_closed s s' e' hstep hs) h ev hev'
        | breakLoop =>
          rw [hstep] at h
          cases tr with
          | nil => exact absurd hev' (List.not_mem_nil ev)
          | cons x xs => exact Option.noConfusion h
        | earlyReturn e2 =>
          rw [hstep] at h
          cases tr with
          | nil => exact absurd hev' (List.not_mem_nil ev)
          | cons x xs => exact Option.noConfusion h
    · rw [if_neg hsel] at h
      exact Option.noConfusion h

/-- Once the signal-handler channel is gone, no later iteration of a valid
complete trace selects a signal event. -/
theorem mainLoop_no_signal_after_closed (jr : Except ε Unit) :
    ∀ (tr : List (LoopEvent ε)) (s : LoopState) (r : MainResult ε),
      s.signalOpen = false → mainLoop jr s tr = some r →
      ∀ ev ∈ tr, ev.isSignal = false
  | [], s, r, hs, h, ev, hev => absurd hev (List.not_mem_nil ev)
  | e' :: tr, s, r, hs, h, ev, hev => by
    simp only [mainLoop] at h
    by_cases hsel : selectable s e' = true
    · rw [if_pos hsel] at h
      rcases List.mem_cons.1 hev with rfl | hev'
      · cases ev with
        | signalData => rw [show selectable s (LoopEvent.signalData : LoopEvent ε) = s.signalOpen from rfl, hs] at hsel; exact Bool.noConfusion hsel
        | signalClosed => rw [show selectable s (LoopEvent.signalClosed : LoopEvent ε) = s.signalOpen from rfl, hs] at hsel; exact Bool.noConfusion hsel
        | socketData o => rfl
        | socketClosed => rfl
        | engineExit res => rfl
      · cases hstep : loopStep s e' with
        | continueLoop s' =>
          rw [hstep] at h
          exact mainLoop_no_signal_after_closed jr tr s' r
            (loopStep_keeps_signal_closed s s' e' hstep hs) h ev hev'
        | breakLoop =>
          rw [hstep] at h
          cases tr with
          | nil => exact absurd hev' (List.not_mem_nil ev)
          | cons x xs => exact Option.noConfusion h
        | earlyReturn e2 =>
          rw [hstep] at h
          cases tr with
          | nil => exact absurd hev' (List.not_mem_nil ev)
          | cons x xs => exact Option.noConfusion h
    · rw [if_neg hsel] at h
      exact Option.noConfusion h

/-- Splitting a complete trace at a non-empty tail: the prefix consists of
fall-through iterations reaching some intermediate state. -/
theorem mainLoop_split (jr : Except ε Unit) :
    ∀ (pre tail : List (LoopEvent ε)) (s : LoopState) (r : MainResult ε),
      tail ≠ [] → mainLoop jr s (pre ++ tail) = some r →
      ∃ s', runEvents s pre = some s' ∧ mainLoop jr s' tail = some r
  | [], tail, s, r, hne, h => ⟨s, rfl, h⟩
  | e' :: pre, tail, s, r, hne, h => by
    simp only [List.cons_append, mainLoop] at h
    by_cases hsel : selectable s e' = true
    · rw [if_pos hsel] at h
      cases hstep : loopStep s e' with
      | continueLoop s' =>
        rw [hstep] at h
        obtain ⟨s'', hrun, hml⟩ := mainLoop_split jr pre tail s' r hne h
        refine ⟨s'', ?_, hml⟩
        simp only [runEvents, if_pos hsel, hstep]
        exact hrun
      | breakLoop =>
        rw [hstep] at h
        obtain ⟨x, xs, rfl⟩ := List.exists_cons_of_ne_nil hne
        cases pre with
        | nil => exact Option.noConfusion h
        | cons y ys => exact Option.noConfusion h
      | earlyReturn e2 =>
        rw [hstep] at h
        obtain ⟨x, xs, rfl⟩ := List.exists_cons_of_ne_nil hne
        cases pre with
        | nil => exact Option.noConfusion h
        | cons y ys => exact Option.noConfusion h
    · rw [if_neg hsel] at h
      exact Option.noConfusion h

/-- **C2 (amended).** On the socket-quit, signal-receipt, and normal
engine-completion exit paths of `main_loop`, the signal-handler thread is
sent the synthetic interrupt, joined, and any error it reports is
propagated.  On the engine-error and socket-handler-error exit paths the
`?` operator returns the error from `main_loop` immediately: the synthetic
interrupt is **not** sent and the thread is **not** joined. -/
theorem shutdown_on_exit_paths (jr : Except ε Unit) (tr : List (LoopEvent ε))
    (s : LoopState) (r : MainResult ε) (e : ε) :
    (mainLoop jr s (tr ++ [LoopEvent.socketData (Except.ok none)]) = some r →
       r = ⟨true, true, jr⟩) ∧
    (mainLoop jr s (tr ++ [LoopEvent.signalData]) = some r →
       r = ⟨true, true, jr⟩) ∧
    (mainLoop jr s (tr ++ [LoopEvent.engineExit (Except.ok ())]) = some r →
       r = ⟨true, true, jr⟩) ∧
    (mainLoop jr s (tr ++ [LoopEvent.engineExit (Except.error e)]) = some r →
       r = ⟨false, false, Except.error e⟩) ∧
    (mainLoop jr s (tr ++ [LoopEvent.socketData (Except.error e)]) = some r →
       r = ⟨false, false, Except.error e⟩) :=
  ⟨mainLoop_last_break jr (LoopEvent.socketData (Except.ok none)) (fun _ => rfl) tr s r,
   mainLoop_last_break jr LoopEvent.signalData (fun _ => rfl) tr s r,
   mainLoop_last_break jr (LoopEvent.engineExit (Except.ok ())) (fun _ => rfl) tr s r,
   mainLoop_last_early jr (LoopEvent.engineExit (Except.error e)) e (fun _ => rfl) tr s r,
   mainLoop_last_early jr (LoopEvent.socketData (Except.error e)) e (fun _ => rfl) tr s r⟩

/-- Counterexample to C2 as stated: on the engine-error exit path the
claim requires the synthetic interrupt to be sent and the thread joined,
but the `?` in `Selected::Exit(res) => { res?; break; }` returns from
`main_loop` before the epilogue: the completed run records
`interruptSent = false` and `joined = false`. -/
theorem engine_error_skips_shutdown :
    mainLoop (Except.ok ()) initState
      [LoopEvent.engineExit (Except.error (3 : Nat))] =
      some { interruptSent := false, joined := false,
             result := Except.error 3 } := rfl

/-- Witness for C2: the amended theorem applied to concrete traces — a
signal after one handled socket command runs the full shutdown, an engine
error skips it. -/
theorem shutdown_on_exit_paths_witness :
    mainLoop (Except.ok ()) initState
      ([LoopEvent.socketData (Except.ok (some ())), LoopEvent.signalData] :
        List (LoopEvent Nat)) = some ⟨true, true, Except.ok ()⟩ ∧
    (⟨true, true, Except.ok ()⟩ : MainResult Nat) = ⟨true, true, Except.ok ()⟩ ∧
    mainLoop (Except.error 7) initState
      ([LoopEvent.engineExit (Except.error 3)] : List (LoopEvent Nat)) =
      some ⟨false, false, Except.error 3⟩ ∧
    (⟨false, false, Except.error 3⟩ : MainResult Nat) =
      ⟨false, false, Except.error 3⟩ := by
  refine ⟨rfl, ?_, rfl, ?_⟩
  · exact (shutdown_on_exit_paths (Except.ok ())
      [LoopEvent.socketData (Except.ok (some ()))] initState
      ⟨true, true, Except.ok ()⟩ (3 : Nat)).2.1 rfl
  · exact (shutdown_on_exit_paths (Except.error 7)
      ([] : List (LoopEvent Nat)) initState
      ⟨false, false, Except.error 3⟩ 3).2.2.2.1 rfl

/-- **C5.** Once the socket channel (resp. the signal channel) is observed
closed, that branch is never selected again for the remainder of the
process: a complete trace contains no socket (resp. signal) event after
the closing event.  Observing the closed channel merely disables the
branch — the iteration falls through (`continueLoop`) and the loop keeps
racing the remaining branches instead of busy-looping on the closed
channel. -/
theorem closed_branch_never_selected (jr : Except ε Unit)
    (pre post : List (LoopEvent ε)) (r : MainResult ε) :
    (mainLoop jr initState (pre ++ LoopEvent.socketClosed :: post) = some r →
       ∀ ev ∈ post, ev.isSocket = false) ∧
    (mainLoop jr initState (pre ++ LoopEvent.signalClosed :: post) = some r →
       ∀ ev ∈ post, ev.isSignal = false) ∧
    (∀ s : LoopState,
       loopStep s (LoopEvent.socketClosed : LoopEvent ε) =
         StepOut.continueLoop { s with socketOpen := false } ∧
       loopStep s (LoopEvent.signalClosed : LoopEvent ε) =
         StepOut.continueLoop { s with signalOpen := false }) := by
  refine ⟨?_, ?_, fun s => ⟨rfl, rfl⟩⟩
  · intro h
    obtain ⟨s', hrun, hml⟩ := mainLoop_split jr pre (LoopEvent.socketClosed :: post)
      initState r (by simp) h
    simp only [mainLoop] at hml
    by_cases hsel : selectable s' (LoopEvent.socketClosed : LoopEvent ε) = true
    · rw [if_pos hsel] at hml
      exact mainLoop_no_socket_after_closed jr post
        { s' with socketOpen := false } r rfl hml
    · rw [if_neg hsel] at hml
      exact Option.noConfusion hml
  · intro h
    obtain ⟨s', hrun, hml⟩ := mainLoop_split jr pre (LoopEvent.signalClosed :: post)
      initState r (by simp) h
    simp only [mainLoop] at hml
    by_cases hsel : selectable s' (LoopEvent.signalClosed : LoopEvent ε) = true
    · rw [if_pos hsel] at hml
      exact mainLoop_no_signal_after_closed jr post
        { s' with signalOpen := false } r rfl hml
    · rw [if_neg hsel] at hml
      exact Option.noConfusion hml

/-- Witness for C5: a concrete trace closes both channels and then
finishes through the engine branch; the theorem yields that the engine
event is neither a socket nor a signal selection, and the trace still
completes the shutdown. -/
theorem closed_branch_never_selected_witness :
    (LoopEvent.engineExit (Except.ok ()) : LoopEvent Nat).isSocket = false ∧
    (LoopEvent.engineExit (Except.ok ()) : LoopEvent Nat).isSignal = false ∧
    mainLoop (Except.ok ()) initState
      ([LoopEvent.socketClosed, LoopEvent.signalClosed,
        LoopEvent.engineExit (Except.ok ())] : List (LoopEvent Nat)) =
      some ⟨true, true, Except.ok ()⟩ := by
  refine ⟨?_, ?_, rfl⟩
  · exact (closed_branch_never_selected (Except.ok ()) []
      [LoopEvent.signalClosed, LoopEvent.engineExit (Except.ok ())]
      ⟨true, true, Except.ok ()⟩).1 rfl (LoopEvent.engineExit (Except.ok ()))
      (List.mem_cons_of_mem _ (List.mem_singleton.2 rfl))
  · exact (closed_branch_never_selected (Except.ok ()) [LoopEvent.socketClosed]
      [LoopEvent.engineExit (Except.ok ())]
      ⟨true, true, Except.ok ()⟩).2.1 rfl (LoopEvent.engineExit (Except.ok ()))
      (List.mem_singleton.2 rfl)

end Xidlehook
